import Mathlib

/-!
Verification of the tournament-manager domain core of the
`tournament-discord-bot` repository, as a shallow embedding in Lean.

Conventions of the embedding:
* Python objects become Lean structures; in-place mutation becomes explicit
  state passing.  An operation that in Python mutates a `Tournament` (or a
  `Match`) and may `raise` is modelled as a function returning
  `Except Err α × Tournament` (resp. `× Match`): the second component is the
  state of the mutated object at the moment the operation returns or raises.
* Python `raise SomeError(...)` / an early `return "error message"` in a
  command handler becomes `.error e` for a constructor `e : Err` named after
  the raise site.
* Loosely typed id values (the repository stores team ids sometimes as
  `str`, sometimes as `int`) are modelled by `PyVal`; Python `==` between an
  `int` and a `str` is `False`, which is structural equality on `PyVal`, and
  Python `str(·)` is `pyToStr`.
* Calls into the external Toornament provider client are modelled by passing
  the provider's response as an explicit argument (`Option ToornamentInfo`,
  `List Participant`, ...): the client is an external collaborator and a
  fixed response models one fetch result.
-/

/-- A loosely typed Python scalar as stored in team-id positions: either a
string or an integer.  Python `==` across the two constructors is `False`,
i.e. plain structural equality. -/
inductive PyVal where
  | str : String → PyVal
  | int : Int → PyVal
deriving DecidableEq, Repr

/-- Python `str(v)`: identity on strings, decimal representation on ints. -/
def pyToStr : PyVal → String
  | .str s => s
  | .int n => toString n

/-- `models/player.py`: `Player` dataclass. -/
structure Player where
  name : String
  custom_fields : List String
  email : Option String
deriving DecidableEq, Repr

/-- `models/score_submission.py`: `ScoreSubmission` dataclass
(`updated_at` is the timestamp string written at creation/mutation time;
the clock value is passed in as an explicit `now` argument). -/
structure ScoreSubmission where
  match_name : String
  team_name : String
  screenshot_links : List String
  position : Option Int
  eliminations : Option Int
  updated_at : String
deriving DecidableEq, Repr

/-- `models/team.py`: `Team` dataclass.  `id` is kept as a loose `PyVal`
because the repository stores it either as the provider's string id or as an
integer (see `find_team_by_id`, which compares against `str(team_id)`). -/
structure Team where
  id : PyVal
  name : String
  custom_fields : List String
  lineup : List Player
  captain : Option String
  checked_in : Option Bool
  score_submissions : List ScoreSubmission
deriving DecidableEq, Repr

/-- `Team.find_submission_by_match`: first submission whose `match_name`
equals the given name. -/
def Team.find_submission_by_match (team : Team) (matchName : String) :
    Option ScoreSubmission :=
  team.score_submissions.find? (fun s => s.match_name == matchName)

/-- `models/match.py`: `MatchStatus(IntEnum)` with PENDING, ONGOING,
COMPLETED. -/
inductive MatchStatus where
  | pending
  | ongoing
  | completed
deriving DecidableEq, Repr

/-- Modelled from the spec: the `Match` dataclass of `models/match.py` in the
source tree omits the `id`, `group_name` and `teams_registered` fields even
though `MatchService.create_match` / `join_match`, the plugin commands and
the repository's own unit tests (`test_match_service.py` constructs
`Match(id=1, ..., teams_registered=["1", "2"], ...)`) all read and write
them.  The three missing fields are modelled from the spec's data model:
`id` (optional external group identity, a plain int where `0`/falsy means
"no external id"), `teams_registered` (external eligibility list of team
ids, populated only when `id` was supplied) and `group_name` (descriptive
group label from provider metadata).  The remaining fields are from the
source dataclass. -/
structure Match where
  name : String
  created_by : String
  created_at : String
  password : Option String
  status : MatchStatus
  teams_joined : List PyVal
  teams_ready : List PyVal
  id : Int
  group_name : Option String
  teams_registered : List PyVal
deriving DecidableEq, Repr

/-- `models/toornament_info.py`: `ToornamentInfo` dataclass. -/
structure ToornamentInfo where
  id : Int
  country : String
  discipline : String
  location : String
  name : String
  scheduled_date_end : String
  scheduled_date_start : String
  size : Int
  status : String
  team_max_size : Int
  team_min_size : Int
  rule : Option String
  prize : Option String
  platforms : List String
deriving DecidableEq, Repr

/-- `models/tournament.py`: `Tournament` dataclass.  (`alias` is a reserved
token in Lean and so is `matches`, so those two fields are spelled with a
trailing underscore.) -/
structure Tournament where
  id : Int
  alias_ : String
  info : Option ToornamentInfo
  administrator_roles : List String
  captain_role : Option String
  channels : List String
  matches_ : List Match
  teams : List Team
  url : Option String
deriving DecidableEq, Repr

/-- A participant record as returned by the provider client
(`get_participants` / `get_participant`): the dict keys the repository
reads are `id`, `name`, `lineup`, `custom_fields` and (optionally, via
`.get`) `checked_in`. -/
structure Participant where
  id : PyVal
  name : String
  lineup : List Player
  custom_fields : List String
  checked_in : Option Bool
deriving DecidableEq, Repr

/-- `Team.from_dict(participant)` (`models/_base.py` `from_dict` applied to
the `Team` dataclass): keys present in the participant dict fill the
corresponding fields, the rest take the dataclass defaults
(`captain = None`, `score_submissions = []`). -/
def Team.from_dict (p : Participant) : Team :=
  { id := p.id
    name := p.name
    custom_fields := p.custom_fields
    lineup := p.lineup
    captain := none
    checked_in := p.checked_in
    score_submissions := [] }

/-- One opponent entry of the provider's match metadata: the repository
reads `p["participant"]["id"]`. -/
structure OpponentRef where
  participant_id : PyVal
deriving DecidableEq, Repr

/-- Provider match metadata as returned by `get_match`: the repository reads
`match_info["public_notes"]` and `match_info["opponents"]`. -/
structure ProviderMatchInfo where
  public_notes : Option String
  opponents : List OpponentRef
deriving DecidableEq, Repr

/-- The typed errors of `services/errors.py` together with one constructor
per distinct `GenericError(...)` raise site and per distinct early error
`return` of the command layer in `tournament_manager.py`. -/
inductive Err where
  | tournamentIDNotFound : Int → Err
  | tournamentMatchNameNotFound : String → Err
  | tournamentTeamIDNotFound : Int → Err
  | tournamentTeamNameNotFound : String → Err
  | tournamentTeamCaptainExists : String → String → Err
  | errorFetchingParticipantData : Int → String → Err
  | matchIDNotFound : Int → Err
  | cantStartMatchWithStatus : MatchStatus → Err
  | teamNotEligible : Option String → Err
  | matchCompletedLocked : String → Err
  | scoreAlreadySubmitted : String → Err
  | noScoreSubmissionFound : String → Err
  | notAuthorizedToJoin : Option String → Err
  | alreadyJoinedMatch : String → Err
  | cantJoinWithStatus : MatchStatus → Err
  | matchNameExists : Err
  | cantEndMatchWithStatus : MatchStatus → Err
  | teamNotInMatch : String → Err
  | cantLeaveWithStatus : MatchStatus → Err
  | alreadyLinkedToTeam : Err
  | cantBeCaptainOfMultipleTeams : Err
  | tournamentNotFound : Err
deriving DecidableEq, Repr

/-- `TournamentService.find_match_by_name`: first match with the given
name. -/
def find_match_by_name (t : Tournament) (matchName : String) : Option Match :=
  t.matches_.find? (fun m => m.name == matchName)

/-- `TournamentService.find_team_by_name`: first team with the given
name. -/
def find_team_by_name (t : Tournament) (teamName : String) : Option Team :=
  t.teams.find? (fun p => p.name == teamName)

/-- `TournamentService.find_team_by_id`: first team `p` with
`p.id == str(team_id)`.  The stored `p.id` is compared against the *string*
rendering of the argument, so a team whose stored id is an `int` never
compares equal. -/
def find_team_by_id (t : Tournament) (teamId : PyVal) : Option Team :=
  t.teams.find? (fun p => p.id == PyVal.str (pyToStr teamId))

/-- `TournamentService.find_captain_team` /
`Tournament.find_team_by_captain`: first team whose `captain` equals the
given name. -/
def find_team_by_captain (t : Tournament) (captainName : String) : Option Team :=
  t.teams.find? (fun p => p.captain == some captainName)

/-- `TournamentService.get_match_by_name`: raising version of
`find_match_by_name`. -/
def get_match_by_name (t : Tournament) (matchName : String) : Except Err Match :=
  match find_match_by_name t matchName with
  | none => .error (.tournamentMatchNameNotFound matchName)
  | some m => .ok m

/-- `TournamentService.get_team_by_id`: raising version of
`find_team_by_id` (the service always calls it with an `int` argument). -/
def get_team_by_id (t : Tournament) (teamId : Int) : Except Err Team :=
  match find_team_by_id t (.int teamId) with
  | none => .error (.tournamentTeamIDNotFound teamId)
  | some team => .ok team

/-- `TournamentService.get_team_by_name`: raising version of
`find_team_by_name`. -/
def get_team_by_name (t : Tournament) (teamName : String) : Except Err Team :=
  match find_team_by_name t teamName with
  | none => .error (.tournamentTeamNameNotFound teamName)
  | some team => .ok team

/-- In-place mutation of the team object returned by `find_team_by_id`:
the first team whose stored id equals the string `s` is replaced by
`newTeam` (every other list element is untouched). -/
def replaceFirstTeamById (s : String) (newTeam : Team) : List Team → List Team
  | [] => []
  | tm :: rest =>
    if tm.id = PyVal.str s then newTeam :: rest
    else tm :: replaceFirstTeamById s newTeam rest

/-- In-place mutation of the team object returned by `find_team_by_name`. -/
def replaceFirstTeamByName (teamName : String) (newTeam : Team) :
    List Team → List Team
  | [] => []
  | tm :: rest =>
    if tm.name = teamName then newTeam :: rest
    else tm :: replaceFirstTeamByName teamName newTeam rest

/-- In-place mutation of the submission object returned by
`find_submission_by_match`. -/
def replaceFirstSubmission (matchName : String) (s' : ScoreSubmission) :
    List ScoreSubmission → List ScoreSubmission
  | [] => []
  | s :: rest =>
    if s.match_name = matchName then s' :: rest
    else s :: replaceFirstSubmission matchName s' rest

/-- `MatchService.start_match`: requires status PENDING, moves to ONGOING
(raises `CantStartMatchWithStatus` otherwise). -/
def start_match (m : Match) : Except Err Unit × Match :=
  if m.status ≠ MatchStatus.pending then
    (.error (.cantStartMatchWithStatus m.status), m)
  else
    (.ok (), { m with status := MatchStatus.ongoing })

/-- `TournamentManagerPlugin.end_match` (core of the command, after the
match has been resolved by name): unless `force` is set, requires status
ONGOING; moves to COMPLETED. -/
def end_match (m : Match) (force : Bool) : Except Err Unit × Match :=
  if m.status ≠ MatchStatus.ongoing ∧ force = false then
    (.error (.cantEndMatchWithStatus m.status), m)
  else
    (.ok (), { m with status := MatchStatus.completed })

/-- `MatchService.join_match`: eligibility against `teams_registered` when
the match has an external id, then the already-joined check, then the
PENDING check, then (guarded once more, as in the source) appends
`str(team_id)` to `teams_joined`. -/
def join_match (m : Match) (teamId : Int) (teamName : String) :
    Except Err Unit × Match :=
  if m.id ≠ 0 ∧ PyVal.str (pyToStr (.int teamId)) ∉ m.teams_registered then
    (.error (.notAuthorizedToJoin m.group_name), m)
  else if PyVal.str (pyToStr (.int teamId)) ∈ m.teams_joined then
    (.error (.alreadyJoinedMatch teamName), m)
  else if m.status ≠ MatchStatus.pending then
    (.error (.cantJoinWithStatus m.status), m)
  else if PyVal.str (pyToStr (.int teamId)) ∉ m.teams_joined then
    (.ok (), { m with
      teams_joined := m.teams_joined ++ [PyVal.str (pyToStr (.int teamId))] })
  else
    (.ok (), m)

/-- Python `list.remove(x)`: drop the first element equal to `x`. -/
def removeFirstJoined (x : PyVal) : List PyVal → List PyVal
  | [] => []
  | y :: rest => if y = x then rest else y :: removeFirstJoined x rest

/-- `TournamentManagerPlugin.leave` (core of the command, after the acting
captain's team and the match have been resolved): requires the team id to be
in `teams_joined` and the match to be PENDING, then removes the id. -/
def leave_match (m : Match) (teamId : PyVal) (teamName : String) :
    Except Err Unit × Match :=
  if teamId ∉ m.teams_joined then
    (.error (.teamNotInMatch teamName), m)
  else if m.status ≠ MatchStatus.pending then
    (.error (.cantLeaveWithStatus m.status), m)
  else
    (.ok (), { m with teams_joined := removeFirstJoined teamId m.teams_joined })

/-- `TournamentService.submit_score`: resolve match and team, check
eligibility (`match.id` truthy and `team.id not in match.teams_registered`),
the COMPLETED lock, and the one-submission-per-match rule, then append a new
`ScoreSubmission` to the team (mutating the team object inside
`tournament.teams`). -/
def submit_score (t : Tournament) (matchName : String) (teamId : Int)
    (urls : List String) (position : Int) (eliminations : Int) (now : String) :
    Except Err ScoreSubmission × Tournament :=
  match find_match_by_name t matchName with
  | none => (.error (.tournamentMatchNameNotFound matchName), t)
  | some m =>
    match find_team_by_id t (.int teamId) with
    | none => (.error (.tournamentTeamIDNotFound teamId), t)
    | some team =>
      if m.id ≠ 0 ∧ team.id ∉ m.teams_registered then
        (.error (.teamNotEligible m.group_name), t)
      else if m.status = MatchStatus.completed then
        (.error (.matchCompletedLocked m.name), t)
      else
        match team.find_submission_by_match m.name with
        | some _ => (.error (.scoreAlreadySubmitted m.name), t)
        | none =>
          let score : ScoreSubmission :=
            { match_name := m.name
              team_name := team.name
              screenshot_links := urls
              position := some position
              eliminations := some eliminations
              updated_at := now }
          let team2 : Team :=
            { team with score_submissions := team.score_submissions ++ [score] }
          (.ok score,
            { t with
              teams := replaceFirstTeamById (pyToStr (.int teamId)) team2 t.teams })

/-- `TournamentService.add_screenshot`: resolve match and team, check the
COMPLETED lock, require an existing submission for the match, then extend
its `screenshot_links` with the given urls and refresh `updated_at`
(mutating the submission object inside the team inside
`tournament.teams`). -/
def add_screenshot (t : Tournament) (matchName : String) (teamId : Int)
    (urls : List String) (now : String) :
    Except Err ScoreSubmission × Tournament :=
  match find_match_by_name t matchName with
  | none => (.error (.tournamentMatchNameNotFound matchName), t)
  | some m =>
    match find_team_by_id t (.int teamId) with
    | none => (.error (.tournamentTeamIDNotFound teamId), t)
    | some team =>
      if m.status = MatchStatus.completed then
        (.error (.matchCompletedLocked m.name), t)
      else
        match team.find_submission_by_match m.name with
        | none => (.error (.noScoreSubmissionFound m.name), t)
        | some score =>
          let score' : ScoreSubmission :=
            { score with
              screenshot_links := score.screenshot_links ++ urls
              updated_at := now }
          let team2 : Team :=
            { team with
              score_submissions :=
                replaceFirstSubmission m.name score' team.score_submissions }
          (.ok score',
            { t with
              teams := replaceFirstTeamById (pyToStr (.int teamId)) team2 t.teams })

/-- Overwrite of a matched team's fields during reconciliation:
`team.name = participant["name"]`, `team.lineup = [...]`,
`team.checked_in = participant.get("checked_in")`. -/
def updTeam (tm : Team) (p : Participant) : Team :=
  { tm with name := p.name, lineup := p.lineup, checked_in := p.checked_in }

/-- In-place mutation of the team object returned by
`find_team_by_id(tournament, participant["id"])` inside the reconciliation
loop: update the first team whose stored id equals
`str(participant["id"])`; `none` when no team matches. -/
def updateFirstTeam (p : Participant) : List Team → Option (List Team)
  | [] => none
  | tm :: rest =>
    if tm.id = PyVal.str (pyToStr p.id) then some (updTeam tm p :: rest)
    else (updateFirstTeam p rest).map (fun ts => tm :: ts)

/-- One iteration of the `for participant in participants` loop of
`refresh_tournament`: update the matched team in place, or append
`Team.from_dict(participant)`. -/
def refreshStep (ts : List Team) (p : Participant) : List Team :=
  match updateFirstTeam p ts with
  | some ts' => ts'
  | none => ts ++ [Team.from_dict p]

/-- The whole participant loop of `refresh_tournament`. -/
def refreshTeams (ts : List Team) (ps : List Participant) : List Team :=
  ps.foldl refreshStep ts

/-- `TournamentService.refresh_tournament`: fetch tournament metadata
(`info`, raising `TournamentIDNotFound` on a falsy response before touching
the tournament), overwrite `tournament.info` wholesale, then run the
participant loop.  The two provider responses are the explicit `info` and
`ps` arguments. -/
def refresh_tournament (info : Option ToornamentInfo) (ps : List Participant)
    (t : Tournament) : Except Err Tournament × Tournament :=
  match info with
  | none => (.error (.tournamentIDNotFound t.id), t)
  | some i =>
    let t' := { t with info := some i, teams := refreshTeams t.teams ps }
    (.ok t', t')

/-- `TournamentService.reset_tournament_team`: resolve the team by id
(raising `TournamentTeamIDNotFound`), then — with the provider's
`get_participant` response passed as the explicit `participant` argument —
raise `ErrorFetchingParticipantData` on a falsy response *before* clearing
anything, otherwise clear `captain` and overwrite `lineup`, `custom_fields`
and `checked_in` from the fetched participant. -/
def reset_tournament_team (participant : Option Participant) (t : Tournament)
    (teamId : Int) : Except Err Team × Tournament :=
  match find_team_by_id t (.int teamId) with
  | none => (.error (.tournamentTeamIDNotFound teamId), t)
  | some team =>
    match participant with
    | none => (.error (.errorFetchingParticipantData teamId t.alias_), t)
    | some p =>
      let team' : Team :=
        { team with
          captain := none
          lineup := p.lineup
          custom_fields := p.custom_fields
          checked_in := p.checked_in }
      (.ok team',
        { t with
          teams := replaceFirstTeamById (pyToStr (.int teamId)) team' t.teams })

/-- `TournamentService.link_team_captain`: resolve the team by name
(raising `TournamentTeamNameNotFound`), raise `TournamentTeamCaptainExists`
if that team already has a captain, else set `team.captain`.  Note that this
engine operation inspects only the *target* team of the *given*
tournament. -/
def link_team_captain (t : Tournament) (teamName : String)
    (captainName : String) : Except Err Team × Tournament :=
  match find_team_by_name t teamName with
  | none => (.error (.tournamentTeamNameNotFound teamName), t)
  | some team =>
    match team.captain with
    | some existing =>
      (.error (.tournamentTeamCaptainExists teamName existing), t)
    | none =>
      let team' := { team with captain := some captainName }
      (.ok team',
        { t with teams := replaceFirstTeamByName teamName team' t.teams })

/-- `TournamentManagerPlugin.create_match` (core of the command): reject a
duplicate match name, build the `Match`, and when `match_id` is truthy
populate `group_name` and `teams_registered` from the provider's match
metadata (the explicit `matchInfo` argument models the `get_match`
response), raising the match-id-not-found error on a falsy response; on
success append the match to `tournament.matches`. -/
def create_match (t : Tournament) (matchName : String) (createdBy : String)
    (password : Option String) (matchId : Int) (createdAt : String)
    (matchInfo : Option ProviderMatchInfo) : Except Err Match × Tournament :=
  match find_match_by_name t matchName with
  | some _ => (.error .matchNameExists, t)
  | none =>
    let m : Match :=
      { name := matchName
        created_by := createdBy
        created_at := createdAt
        password := password
        status := MatchStatus.pending
        teams_joined := []
        teams_ready := []
        id := matchId
        group_name := none
        teams_registered := [] }
    if matchId ≠ 0 then
      match matchInfo with
      | none => (.error (.matchIDNotFound matchId), t)
      | some info =>
        let m' := { m with
          group_name := info.public_notes
          teams_registered := info.opponents.map (fun o => o.participant_id) }
        (.ok m', { t with matches_ := t.matches_ ++ [m'] })
    else
      (.ok m, { t with matches_ := t.matches_ ++ [m] })

/-- The persisted store `self["tournaments"]`: a Python dict from alias to
Tournament, modelled as an insertion-ordered association list. -/
abbrev Store := List (String × Tournament)

/-- Dict lookup `tournaments[alias]` / `alias in tournaments`. -/
def lookupStore (store : Store) (a : String) : Option Tournament :=
  match store with
  | [] => none
  | kv :: rest => if kv.1 = a then some kv.2 else lookupStore rest a

/-- Dict mutation `tournaments.update({alias: ...})`: replace the value at
an existing key in place, append the pair otherwise. -/
def storeUpdate (store : Store) (a : String) (t : Tournament) : Store :=
  match store with
  | [] => [(a, t)]
  | kv :: rest =>
    if kv.1 = a then (a, t) :: rest else kv :: storeUpdate rest a t

/-- `TournamentManagerPlugin._find_captain_team`: scan the store in order
and return the first (team, tournament) whose team captain is the given
username. -/
def find_captain_team (store : Store) (username : String) :
    Option (Team × Tournament) :=
  match store with
  | [] => none
  | kv :: rest =>
    match find_team_by_captain kv.2 username with
    | some team => some (team, kv.2)
    | none => find_captain_team rest username

/-- `TournamentManagerPlugin.link` (core of the command, Discord side
effects dropped): reject an unknown alias; reject the request whenever the
acting user is already the captain of *any* team of *any* tournament in the
store (with a distinct message when that team is the requested one); then
resolve the team by name in the requested tournament, reject it if it
already has a captain, else set `team.captain` to the user and write the
tournament back to the store. -/
def link_cmd (store : Store) (user : String) (a : String) (teamName : String) :
    Except Err Unit × Store :=
  match lookupStore store a with
  | none => (.error .tournamentNotFound, store)
  | some t =>
    match find_captain_team store user with
    | some (team, _) =>
      if team.name = teamName then (.error .alreadyLinkedToTeam, store)
      else (.error .cantBeCaptainOfMultipleTeams, store)
    | none =>
      match find_team_by_name t teamName with
      | none => (.error (.tournamentTeamNameNotFound teamName), store)
      | some team =>
        match team.captain with
        | some c => (.error (.tournamentTeamCaptainExists teamName c), store)
        | none =>
          let team' := { team with captain := some user }
          let t' := { t with teams := replaceFirstTeamByName teamName team' t.teams }
          (.ok (), storeUpdate store a t')

/-- Whether a loose value is a Python string (decidable form of "the stored
id is a `str`"). -/
def PyVal.isStr : PyVal → Bool
  | .str _ => true
  | .int _ => false

/-- What one reconciliation-loop iteration for participant `p` may do to a
team at a fixed position: leave it alone, or — when its stored id matches
`str(p["id"])` — overwrite exactly `name`, `lineup` and `checked_in`. -/
def stepRel (p : Participant) (tmOld tmNew : Team) : Prop :=
  tmNew = tmOld
  ∨ (tmOld.id = PyVal.str (pyToStr p.id) ∧ tmNew = updTeam tmOld p)

/-- What a whole reconciliation run over `ps` may do to a pre-existing team:
its `id`, `custom_fields`, `captain` and `score_submissions` are untouched,
and it is either left alone or overwritten (in `name`/`lineup`/`checked_in`
only) from some fetched participant whose id matches. -/
def refreshRel (ps : List Participant) (tmOld tmNew : Team) : Prop :=
  (tmNew.id = tmOld.id ∧ tmNew.custom_fields = tmOld.custom_fields
    ∧ tmNew.captain = tmOld.captain
    ∧ tmNew.score_submissions = tmOld.score_submissions)
  ∧ (tmNew = tmOld
      ∨ ∃ q ∈ ps, tmOld.id = PyVal.str (pyToStr q.id) ∧ tmNew = updTeam tmOld q)

/-- The fields of a team that the reconciliation loop never writes. -/
def teamCore (tm : Team) :
    PyVal × List String × Option String × List ScoreSubmission :=
  (tm.id, tm.custom_fields, tm.captain, tm.score_submissions)

/-- Position of the team that `find_team_by_id`/the reconciliation loop
would return for the string key `s`: index of the first team whose stored
id is the string `s`. -/
def firstIdxTeam (s : String) : List Team → Option Nat
  | [] => none
  | tm :: rest =>
    if tm.id = PyVal.str s then some 0
    else (firstIdxTeam s rest).map (· + 1)

/-! Concrete sample values used by witnesses and counterexamples. -/

/-- A sample provider tournament-metadata snapshot. -/
def info0 : ToornamentInfo :=
  { id := 42, country := "US", discipline := "fortnite", location := "NA",
    name := "Cup", scheduled_date_end := "2020-01-02",
    scheduled_date_start := "2020-01-01", size := 16, status := "running",
    team_max_size := 4, team_min_size := 1, rule := none, prize := none,
    platforms := [] }

/-- A sample PENDING match with no external id. -/
def m0 : Match :=
  { name := "m1", created_by := "admin", created_at := "01/01/2020 00:00:00",
    password := none, status := MatchStatus.pending, teams_joined := [],
    teams_ready := [], id := 0, group_name := none, teams_registered := [] }

/-- A sample PENDING match with an external id and a registration list. -/
def mReg : Match :=
  { m0 with
    id := 5
    group_name := some "Group A"
    teams_registered := [PyVal.str "7", PyVal.str "8"] }

/-- Team `"Alpha"`, id `"1"`, captained by `"alice"`. -/
def teamA : Team :=
  { id := PyVal.str "1", name := "Alpha", custom_fields := [], lineup := [],
    captain := some "alice", checked_in := none, score_submissions := [] }

/-- Team `"Y"`, id `"2"`, no captain. -/
def teamY : Team :=
  { id := PyVal.str "2", name := "Y", custom_fields := [], lineup := [],
    captain := none, checked_in := none, score_submissions := [] }

/-- A team whose id is stored as the *integer* `7`. -/
def teamInt : Team :=
  { id := PyVal.int 7, name := "IntTeam", custom_fields := [], lineup := [],
    captain := none, checked_in := none, score_submissions := [] }

/-- Tournament `A` containing `teamA` (so `"alice"` is a captain there). -/
def tA : Tournament :=
  { id := 1, alias_ := "A", info := none, administrator_roles := [],
    captain_role := none, channels := [], matches_ := [], teams := [teamA],
    url := none }

/-- Tournament `B` containing the uncaptained `teamY`. -/
def tB : Tournament :=
  { id := 2, alias_ := "B", info := none, administrator_roles := [],
    captain_role := none, channels := [], matches_ := [], teams := [teamY],
    url := none }

/-- A tournament whose only team has an integer-valued id. -/
def tIntIds : Tournament :=
  { id := 3, alias_ := "C", info := none, administrator_roles := [],
    captain_role := none, channels := [], matches_ := [], teams := [teamInt],
    url := none }

/-- The `ScoreSubmission` constructed by `submit_score` on success. -/
def submittedScore (m : Match) (team : Team) (urls : List String)
    (position eliminations : Int) (now : String) : ScoreSubmission :=
  { match_name := m.name
    team_name := team.name
    screenshot_links := urls
    position := some position
    eliminations := some eliminations
    updated_at := now }

/-- A team after `submit_score` appended a submission to it. -/
def team_after_submit (team : Team) (s : ScoreSubmission) : Team :=
  { team with score_submissions := team.score_submissions ++ [s] }

/-- The submission produced by `add_screenshot`: the previous submission
with the urls appended to `screenshot_links` and a fresh `updated_at`. -/
def amendedScore (s : ScoreSubmission) (urls : List String) (now : String) :
    ScoreSubmission :=
  { s with
    screenshot_links := s.screenshot_links ++ urls
    updated_at := now }

/-- A team after `add_screenshot` replaced its submission for a match. -/
def team_after_amend (team : Team) (matchName : String)
    (s' : ScoreSubmission) : Team :=
  { team with
    score_submissions :=
      replaceFirstSubmission matchName s' team.score_submissions }

/-- Team with string id `"7"` and no submissions. -/
def team7 : Team :=
  { id := PyVal.str "7", name := "Seven", custom_fields := [], lineup := [],
    captain := none, checked_in := none, score_submissions := [] }

/-- Team with string id `"9"` (not registered in `mReg`). -/
def team9 : Team :=
  { id := PyVal.str "9", name := "Nine", custom_fields := [], lineup := [],
    captain := none, checked_in := none, score_submissions := [] }

/-- An existing score submission of `team7` for match `"m1"`. -/
def s0 : ScoreSubmission :=
  { match_name := "m1", team_name := "Seven", screenshot_links := ["u1"],
    position := some 2, eliminations := some 5, updated_at := "t0" }

/-- `team7` with the submission `s0` already recorded. -/
def team7s : Team := { team7 with score_submissions := [s0] }

/-- Tournament with the id-carrying match `mReg` and the unregistered
`team9`. -/
def tSubElig : Tournament := { tB with matches_ := [mReg], teams := [team9] }

/-- Tournament whose match `"m1"` is COMPLETED. -/
def tSubDone : Tournament :=
  { tB with
    matches_ := [{ m0 with status := MatchStatus.completed }]
    teams := [team7] }

/-- Tournament whose team already submitted for `"m1"`. -/
def tSubDup : Tournament := { tB with matches_ := [m0], teams := [team7s] }

/-- Tournament where a fresh submission for `"m1"` is possible. -/
def tSubOk : Tournament := { tB with matches_ := [m0], teams := [team7] }

/-- Like `tSubDup` but with the match COMPLETED (submissions locked). -/
def tAmendDone : Tournament :=
  { tB with
    matches_ := [{ m0 with status := MatchStatus.completed }]
    teams := [team7s] }

/-- The two-tournament store of the captaincy scenario: `"alice"` captains
`"Alpha"` in `A`; `B`'s team `"Y"` has no captain. -/
def store0 : Store := [("A", tA), ("B", tB)]

/-- A provider participant whose id is the *integer* `7` rather than a
string. -/
def pInt : Participant :=
  { id := PyVal.int 7, name := "T7", lineup := [], custom_fields := [],
    checked_in := none }

/-- A provider participant matching `teamY` (string id `"2"`). -/
def pStr : Participant :=
  { id := PyVal.str "2", name := "YY", lineup := [], custom_fields := [],
    checked_in := some true }

/-- A provider participant with a fresh string id `"5"`. -/
def pNew : Participant :=
  { id := PyVal.str "5", name := "New", lineup := [], custom_fields := ["c"],
    checked_in := none }

/-! Helper lemmas. -/

theorem find?_append_of_neg {α : Type} (pred : α → Bool) (pre rest : List α)
    (h : ∀ x ∈ pre, pred x = false) :
    (pre ++ rest).find? pred = rest.find? pred := by
  induction pre with
  | nil => rfl
  | cons a l ih =>
    rw [List.cons_append, List.find?_cons_of_neg _ (by simp [h a (by simp)]),
      ih (fun x hx => h x (by simp [hx]))]

theorem removeFirstJoined_append (x : PyVal) (l : List PyVal) (hx : x ∉ l) :
    removeFirstJoined x (l ++ [x]) = l := by
  induction l with
  | nil => simp [removeFirstJoined]
  | cons y ys ih =>
    have hyx : ¬(y = x) := fun hcontra => hx (hcontra ▸ List.mem_cons_self y ys)
    have hx' : x ∉ ys := fun hmem => hx (List.mem_cons_of_mem y hmem)
    simp only [List.cons_append, removeFirstJoined, if_neg hyx]
    exact congrArg (List.cons y) (ih hx')

theorem find_team_by_id_decomp (ts : List Team) (s : String) (team : Team)
    (h : ts.find? (fun p => p.id == PyVal.str s) = some team) :
    ∃ pre post, ts = pre ++ team :: post
      ∧ team.id = PyVal.str s
      ∧ (∀ x ∈ pre, x.id ≠ PyVal.str s)
      ∧ ∀ tm', replaceFirstTeamById s tm' ts = pre ++ tm' :: post := by
  induction ts with
  | nil => simp [List.find?] at h
  | cons a l ih =>
    by_cases ha : a.id = PyVal.str s
    · rw [List.find?_cons_of_pos _ (by simp [ha])] at h
      cases h
      exact ⟨[], l, rfl, ha, by simp,
        fun tm' => by simp [replaceFirstTeamById, ha]⟩
    · rw [List.find?_cons_of_neg _ (by simp [ha])] at h
      obtain ⟨pre, post, h1, h2, h3, h4⟩ := ih h
      refine ⟨a :: pre, post, by simp [h1], h2, ?_, fun tm' => ?_⟩
      · intro x hx
        rcases List.mem_cons.mp hx with hxa | hx
        · exact hxa ▸ ha
        · exact h3 x hx
      · simp [replaceFirstTeamById, ha, h4 tm']

theorem find_team_by_name_decomp (ts : List Team) (nm : String) (team : Team)
    (h : ts.find? (fun p => p.name == nm) = some team) :
    ∃ pre post, ts = pre ++ team :: post
      ∧ team.name = nm
      ∧ (∀ x ∈ pre, x.name ≠ nm)
      ∧ ∀ tm', replaceFirstTeamByName nm tm' ts = pre ++ tm' :: post := by
  induction ts with
  | nil => simp [List.find?] at h
  | cons a l ih =>
    by_cases ha : a.name = nm
    · rw [List.find?_cons_of_pos _ (by simp [ha])] at h
      cases h
      exact ⟨[], l, rfl, ha, by simp,
        fun tm' => by simp [replaceFirstTeamByName, ha]⟩
    · rw [List.find?_cons_of_neg _ (by simp [ha])] at h
      obtain ⟨pre, post, h1, h2, h3, h4⟩ := ih h
      refine ⟨a :: pre, post, by simp [h1], h2, ?_, fun tm' => ?_⟩
      · intro x hx
        rcases List.mem_cons.mp hx with hxa | hx
        · exact hxa ▸ ha
        · exact h3 x hx
      · simp [replaceFirstTeamByName, ha, h4 tm']

/-- C4: non-forced match lifecycle only moves PENDING → ONGOING → COMPLETED:
`start_match` succeeds exactly on a PENDING match (raising
`CantStartMatchWithStatus` otherwise) and sets the status to ONGOING, and
`end_match` with `force = false` succeeds exactly on an ONGOING match
(returning the cannot-end error otherwise, in particular on a PENDING
match, whose status is left PENDING) and sets the status to COMPLETED. -/
theorem c4_match_lifecycle_forward (m : Match) :
    ((start_match m).1 = .ok () ↔ m.status = MatchStatus.pending)
    ∧ (m.status = MatchStatus.pending →
        start_match m = (.ok (), { m with status := MatchStatus.ongoing }))
    ∧ (m.status ≠ MatchStatus.pending →
        start_match m = (.error (.cantStartMatchWithStatus m.status), m))
    ∧ ((end_match m false).1 = .ok () ↔ m.status = MatchStatus.ongoing)
    ∧ (m.status = MatchStatus.ongoing →
        end_match m false = (.ok (), { m with status := MatchStatus.completed }))
    ∧ (m.status ≠ MatchStatus.ongoing →
        end_match m false = (.error (.cantEndMatchWithStatus m.status), m)) := by
  cases hs : m.status <;> simp [start_match, end_match, hs]

/-- C4 witness: on the concrete PENDING match `m0`, `start_match` moves to
ONGOING, `end_match` (non-forced) on the ONGOING result moves to COMPLETED,
and `end_match` (non-forced) directly on the PENDING `m0` fails with the
cannot-end error leaving the status PENDING. -/
theorem c4_witness :
    start_match m0 = (.ok (), { m0 with status := MatchStatus.ongoing })
    ∧ end_match { m0 with status := MatchStatus.ongoing } false
        = (.ok (), { m0 with status := MatchStatus.completed })
    ∧ end_match m0 false
        = (.error (.cantEndMatchWithStatus MatchStatus.pending), m0) :=
  ⟨(c4_match_lifecycle_forward m0).2.1 rfl,
   (c4_match_lifecycle_forward
      { m0 with status := MatchStatus.ongoing }).2.2.2.2.1 rfl,
   (c4_match_lifecycle_forward m0).2.2.2.2.2 (by decide)⟩

/-- C8: on a PENDING match, for an eligible team id not yet in
`teams_joined`, `join_match` appends `str(team_id)` to `teams_joined`, an
immediately following `leave` restores the match — in particular
`teams_joined` — to exactly its pre-join value, and a second `join_match`
for the same team fails with the already-joined error and changes
nothing. -/
theorem c8_join_leave_inverse (m : Match) (n : Int) (nm : String)
    (hp : m.status = MatchStatus.pending)
    (hel : m.id ≠ 0 → PyVal.str (pyToStr (.int n)) ∈ m.teams_registered)
    (hnj : PyVal.str (pyToStr (.int n)) ∉ m.teams_joined) :
    join_match m n nm
      = (.ok (), { m with
          teams_joined := m.teams_joined ++ [PyVal.str (pyToStr (.int n))] })
    ∧ leave_match (join_match m n nm).2 (PyVal.str (pyToStr (.int n))) nm
      = (.ok (), m)
    ∧ join_match (join_match m n nm).2 n nm
      = (.error (.alreadyJoinedMatch nm), (join_match m n nm).2) := by
  have hc1 : ¬(m.id ≠ 0 ∧ PyVal.str (pyToStr (.int n)) ∉ m.teams_registered) := by
    rintro ⟨h1, h2⟩
    exact h2 (hel h1)
  have hj : join_match m n nm
      = (.ok (), { m with
          teams_joined := m.teams_joined ++ [PyVal.str (pyToStr (.int n))] }) := by
    unfold join_match
    rw [if_neg hc1, if_neg hnj, if_neg (by simp [hp]), if_pos hnj]
  refine ⟨hj, ?_, ?_⟩
  · rw [hj]
    dsimp only
    unfold leave_match
    dsimp only
    rw [if_neg (not_not_intro (List.mem_append_right _ (by simp))),
      if_neg (by simp [hp]), removeFirstJoined_append _ _ hnj]
  · rw [hj]
    dsimp only
    unfold join_match
    dsimp only
    rw [if_neg hc1, if_pos (List.mem_append_right _ (by simp))]

/-- C8 witness: on the concrete match `mReg` (PENDING, external id `5`,
registration list containing `"7"`), joining team `7`, leaving, and
re-joining behave as stated. -/
theorem c8_witness :
    join_match mReg 7 "Alpha"
      = (.ok (), { mReg with teams_joined := [PyVal.str "7"] })
    ∧ leave_match (join_match mReg 7 "Alpha").2 (PyVal.str "7") "Alpha"
      = (.ok (), mReg)
    ∧ join_match (join_match mReg 7 "Alpha").2 7 "Alpha"
      = (.error (.alreadyJoinedMatch "Alpha"), (join_match mReg 7 "Alpha").2) :=
  c8_join_leave_inverse mReg 7 "Alpha" rfl (by decide) (by decide)

/-- C10: `find_team_by_id` compares each stored team id against the decimal
string of its argument: a returned team always has id `str(team_id)`; a team
is found exactly when one with that string id is present; and when every
team id in the tournament is stored as a non-string (e.g. an integer), the
lookup returns `None` and `get_team_by_id` raises
`TournamentTeamIDNotFound`, even for a team that is present with the
corresponding integer id. -/
theorem c10_find_team_by_id_decimal_string (t : Tournament) (n : Int) :
    (∀ tm, find_team_by_id t (.int n) = some tm →
        tm ∈ t.teams ∧ tm.id = PyVal.str (toString n))
    ∧ ((find_team_by_id t (.int n)).isSome = true ↔
        ∃ tm ∈ t.teams, tm.id = PyVal.str (toString n))
    ∧ ((∀ tm ∈ t.teams, tm.id.isStr = false) →
        find_team_by_id t (.int n) = none
        ∧ get_team_by_id t n = .error (.tournamentTeamIDNotFound n)) := by
  refine ⟨fun tm h => ⟨List.mem_of_find?_eq_some h, ?_⟩, ?_, fun hall => ?_⟩
  · have h2 := List.find?_some h
    simpa [pyToStr] using h2
  · unfold find_team_by_id
    rw [List.find?_isSome]
    simp [pyToStr]
  · have hnone : find_team_by_id t (.int n) = none := by
      unfold find_team_by_id
      rw [List.find?_eq_none]
      intro x hx
      simp only [beq_iff_eq, pyToStr]
      intro hcontra
      have := hall x hx
      rw [hcontra] at this
      exact absurd this (by simp [PyVal.isStr])
    exact ⟨hnone, by unfold get_team_by_id; rw [hnone]⟩

/-- C10 witness: the tournament `tIntIds` stores a team with the *integer*
id `7`; looking it up by id `7` finds nothing and `get_team_by_id` raises,
although the team is present in `teams`. -/
theorem c10_witness :
    teamInt ∈ tIntIds.teams
    ∧ teamInt.id = PyVal.int 7
    ∧ find_team_by_id tIntIds (.int 7) = none
    ∧ get_team_by_id tIntIds 7 = .error (.tournamentTeamIDNotFound 7) :=
  ⟨by decide, rfl,
   ((c10_find_team_by_id_decimal_string tIntIds 7).2.2 (by decide)).1,
   ((c10_find_team_by_id_decimal_string tIntIds 7).2.2 (by decide)).2⟩

/-- C5: `create_match` fails when a match with the requested name already
exists; when a truthy external match id is supplied it fails with the
match-id-not-found error on an empty provider response, and otherwise
returns (and appends to the tournament) a match whose `teams_registered` is
the provider's opponent participant-id list and whose `group_name` is the
provider's `public_notes`. -/
theorem c5_create_match_provider_population (t : Tournament)
    (matchName createdBy : String) (password : Option String) (matchId : Int)
    (createdAt : String) (matchInfo : Option ProviderMatchInfo) :
    (∀ mExisting, find_match_by_name t matchName = some mExisting →
        create_match t matchName createdBy password matchId createdAt matchInfo
          = (.error .matchNameExists, t))
    ∧ (find_match_by_name t matchName = none → matchId ≠ 0 →
        (matchInfo = none →
          create_match t matchName createdBy password matchId createdAt matchInfo
            = (.error (.matchIDNotFound matchId), t))
        ∧ (∀ minfo, matchInfo = some minfo →
            create_match t matchName createdBy password matchId createdAt matchInfo
              = (.ok
                  { name := matchName, created_by := createdBy,
                    created_at := createdAt, password := password,
                    status := MatchStatus.pending, teams_joined := [],
                    teams_ready := [], id := matchId,
                    group_name := minfo.public_notes,
                    teams_registered :=
                      minfo.opponents.map (fun o => o.participant_id) },
                 { t with matches_ := t.matches_ ++
                     [{ name := matchName, created_by := createdBy,
                        created_at := createdAt, password := password,
                        status := MatchStatus.pending, teams_joined := [],
                        teams_ready := [], id := matchId,
                        group_name := minfo.public_notes,
                        teams_registered :=
                          minfo.opponents.map (fun o => o.participant_id) }] }))) := by
  refine ⟨fun mExisting hm => ?_, fun hnone hid => ⟨fun hmi => ?_, fun minfo hmi => ?_⟩⟩
  · unfold create_match
    rw [hm]
  · subst hmi
    unfold create_match
    rw [hnone]
    dsimp only
    rw [if_pos hid]
  · subst hmi
    unfold create_match
    rw [hnone]
    dsimp only
    rw [if_pos hid]

/-- A sample provider match-metadata response with two opponents. -/
def pmInfo0 : ProviderMatchInfo :=
  { public_notes := some "Group A"
    opponents := [{ participant_id := PyVal.str "7" },
      { participant_id := PyVal.str "8" }] }

/-- C5 witness: against `tB` (no matches) and a tournament that already has
`m0`, the three behaviours of `create_match` at concrete inputs. -/
theorem c5_witness :
    create_match { tB with matches_ := [m0] } "m1" "admin" none 0 "t" none
      = (.error .matchNameExists, { tB with matches_ := [m0] })
    ∧ create_match tB "m2" "admin" none 99 "t" none
      = (.error (.matchIDNotFound 99), tB)
    ∧ create_match tB "m2" "admin" none 99 "t" (some pmInfo0)
      = (.ok
          { name := "m2", created_by := "admin", created_at := "t",
            password := none, status := MatchStatus.pending,
            teams_joined := [], teams_ready := [], id := 99,
            group_name := some "Group A",
            teams_registered := [PyVal.str "7", PyVal.str "8"] },
         { tB with matches_ :=
            [{ name := "m2", created_by := "admin", created_at := "t",
               password := none, status := MatchStatus.pending,
               teams_joined := [], teams_ready := [], id := 99,
               group_name := some "Group A",
               teams_registered := [PyVal.str "7", PyVal.str "8"] }] }) :=
  ⟨(c5_create_match_provider_population { tB with matches_ := [m0] }
      "m1" "admin" none 0 "t" none).1 m0 rfl,
   ((c5_create_match_provider_population tB "m2" "admin" none 99 "t" none).2
      rfl (by decide)).1 rfl,
   ((c5_create_match_provider_population tB "m2" "admin" none 99 "t"
      (some pmInfo0)).2 rfl (by decide)).2 pmInfo0 rfl⟩

/-- C6: for a resolved match and team, `submit_score` fails with the
not-eligible error when the match has a truthy external id and the team's
id is not in `teams_registered`; past that check, fails with the locked
error when the match is COMPLETED; past that, fails with the
already-submitted error when the team already has a submission for the
match name; and otherwise succeeds, appending to the team exactly one new
`ScoreSubmission` carrying the given match name, team name, screenshot
urls, position and eliminations. -/
theorem c6_submit_score_checks (t : Tournament) (matchName : String) (n : Int)
    (urls : List String) (position eliminations : Int) (now : String)
    (m : Match) (team : Team)
    (hm : find_match_by_name t matchName = some m)
    (ht : find_team_by_id t (.int n) = some team) :
    (m.id ≠ 0 ∧ team.id ∉ m.teams_registered →
        submit_score t matchName n urls position eliminations now
          = (.error (.teamNotEligible m.group_name), t))
    ∧ (¬(m.id ≠ 0 ∧ team.id ∉ m.teams_registered) →
        m.status = MatchStatus.completed →
        submit_score t matchName n urls position eliminations now
          = (.error (.matchCompletedLocked m.name), t))
    ∧ (∀ s, ¬(m.id ≠ 0 ∧ team.id ∉ m.teams_registered) →
        m.status ≠ MatchStatus.completed →
        team.find_submission_by_match m.name = some s →
        submit_score t matchName n urls position eliminations now
          = (.error (.scoreAlreadySubmitted m.name), t))
    ∧ (¬(m.id ≠ 0 ∧ team.id ∉ m.teams_registered) →
        m.status ≠ MatchStatus.completed →
        team.find_submission_by_match m.name = none →
        submit_score t matchName n urls position eliminations now
          = (.ok (submittedScore m team urls position eliminations now),
             { t with
                teams := replaceFirstTeamById (pyToStr (.int n))
                  (team_after_submit team
                    (submittedScore m team urls position eliminations now))
                  t.teams })) := by
  refine ⟨fun h1 => ?_, fun h1 h2 => ?_, fun s h1 h2 h3 => ?_,
    fun h1 h2 h3 => ?_⟩
  · unfold submit_score
    rw [hm]
    dsimp only
    rw [ht]
    dsimp only
    rw [if_pos h1]
  · unfold submit_score
    rw [hm]
    dsimp only
    rw [ht]
    dsimp only
    rw [if_neg h1, if_pos h2]
  · unfold submit_score
    rw [hm]
    dsimp only
    rw [ht]
    dsimp only
    rw [if_neg h1, if_neg h2, h3]
  · unfold submit_score
    rw [hm]
    dsimp only
    rw [ht]
    dsimp only
    rw [if_neg h1, if_neg h2, h3]
    rfl

/-- C6 witness: the four behaviours of `submit_score` at concrete
tournaments. -/
theorem c6_witness :
    submit_score tSubElig "m1" 9 ["u"] 1 2 "now"
      = (.error (.teamNotEligible (some "Group A")), tSubElig)
    ∧ submit_score tSubDone "m1" 7 ["u"] 1 2 "now"
      = (.error (.matchCompletedLocked "m1"), tSubDone)
    ∧ submit_score tSubDup "m1" 7 ["u"] 1 2 "now"
      = (.error (.scoreAlreadySubmitted "m1"), tSubDup)
    ∧ submit_score tSubOk "m1" 7 ["u1"] 2 5 "now"
      = (.ok (submittedScore m0 team7 ["u1"] 2 5 "now"),
         { tSubOk with
            teams := [team_after_submit team7
              (submittedScore m0 team7 ["u1"] 2 5 "now")] }) :=
  ⟨(c6_submit_score_checks tSubElig "m1" 9 ["u"] 1 2 "now" mReg team9
      rfl rfl).1 (by decide),
   (c6_submit_score_checks tSubDone "m1" 7 ["u"] 1 2 "now"
      { m0 with status := MatchStatus.completed } team7 rfl rfl).2.1
      (by decide) rfl,
   (c6_submit_score_checks tSubDup "m1" 7 ["u"] 1 2 "now" m0 team7s
      rfl rfl).2.2.1 s0 (by decide) (by decide) rfl,
   (c6_submit_score_checks tSubOk "m1" 7 ["u1"] 2 5 "now" m0 team7
      rfl rfl).2.2.2 (by decide) (by decide) rfl⟩

/-- C7: for a resolved match and team with an existing submission for the
match, while the match is not COMPLETED `add_screenshot` returns the
submission with the urls appended at the end of `screenshot_links` (the
previous elements untouched) and `position`/`eliminations` unchanged, and
stores it in place of the old submission; once the match is COMPLETED it
fails with the locked error and the tournament — hence the stored
`screenshot_links` — stays exactly as it was. -/
theorem c7_add_screenshot_appends (t : Tournament) (matchName : String)
    (n : Int) (urls : List String) (now : String) (m : Match) (team : Team)
    (hm : find_match_by_name t matchName = some m)
    (ht : find_team_by_id t (.int n) = some team) :
    (∀ s, m.status ≠ MatchStatus.completed →
        team.find_submission_by_match m.name = some s →
        add_screenshot t matchName n urls now
          = (.ok (amendedScore s urls now),
             { t with
                teams := replaceFirstTeamById (pyToStr (.int n))
                  (team_after_amend team m.name (amendedScore s urls now))
                  t.teams })
        ∧ (amendedScore s urls now).screenshot_links
            = s.screenshot_links ++ urls
        ∧ (amendedScore s urls now).position = s.position
        ∧ (amendedScore s urls now).eliminations = s.eliminations)
    ∧ (m.status = MatchStatus.completed →
        add_screenshot t matchName n urls now
          = (.error (.matchCompletedLocked m.name), t)) := by
  refine ⟨fun s h1 h2 => ⟨?_, rfl, rfl, rfl⟩, fun h1 => ?_⟩
  · unfold add_screenshot
    rw [hm]
    dsimp only
    rw [ht]
    dsimp only
    rw [if_neg h1, h2]
    rfl
  · unfold add_screenshot
    rw [hm]
    dsimp only
    rw [ht]
    dsimp only
    rw [if_pos h1]

/-- C7 witness: on the concrete tournament `tSubDup` (pending match,
existing submission with `screenshot_links = ["u1"]`), adding `["u2"]`
yields links `["u1", "u2"]` with position/eliminations unchanged; on
`tAmendDone` (same data, match COMPLETED) the call fails with the locked
error and the tournament is unchanged. -/
theorem c7_witness :
    add_screenshot tSubDup "m1" 7 ["u2"] "t1"
      = (.ok (amendedScore s0 ["u2"] "t1"),
         { tSubDup with
            teams := [team_after_amend team7s "m1"
              (amendedScore s0 ["u2"] "t1")] })
    ∧ (amendedScore s0 ["u2"] "t1").screenshot_links = ["u1", "u2"]
    ∧ (amendedScore s0 ["u2"] "t1").position = some 2
    ∧ (amendedScore s0 ["u2"] "t1").eliminations = some 5
    ∧ add_screenshot tAmendDone "m1" 7 ["u2"] "t1"
      = (.error (.matchCompletedLocked "m1"), tAmendDone) :=
  ⟨((c7_add_screenshot_appends tSubDup "m1" 7 ["u2"] "t1" m0 team7s
      rfl rfl).1 s0 (by decide) rfl).1,
   ((c7_add_screenshot_appends tSubDup "m1" 7 ["u2"] "t1" m0 team7s
      rfl rfl).1 s0 (by decide) rfl).2.1,
   ((c7_add_screenshot_appends tSubDup "m1" 7 ["u2"] "t1" m0 team7s
      rfl rfl).1 s0 (by decide) rfl).2.2.1,
   ((c7_add_screenshot_appends tSubDup "m1" 7 ["u2"] "t1" m0 team7s
      rfl rfl).1 s0 (by decide) rfl).2.2.2,
   (c7_add_screenshot_appends tAmendDone "m1" 7 ["u2"] "t1"
      { m0 with status := MatchStatus.completed } team7s rfl rfl).2 rfl⟩

theorem find_captain_team_isSome_of_exists (store : Store) (user : String)
    (h : ∃ kv ∈ store, ∃ tm ∈ kv.2.teams, tm.captain = some user) :
    (find_captain_team store user).isSome = true := by
  induction store with
  | nil =>
    obtain ⟨kv, hkv, _⟩ := h
    exact absurd hkv (List.not_mem_nil kv)
  | cons kv0 rest ih =>
    unfold find_captain_team
    cases hf : find_team_by_captain kv0.2 user with
    | some team => rfl
    | none =>
      obtain ⟨kv, hkv, tm, htm, hcap⟩ := h
      rcases List.mem_cons.mp hkv with hkv0 | hkv'
      · exfalso
        unfold find_team_by_captain at hf
        rw [List.find?_eq_none] at hf
        exact hf tm (hkv0 ▸ htm) (by simp [hcap])
      · exact ih ⟨kv, hkv', tm, htm, hcap⟩

/-- C2 counterexample: with `"alice"` already the captain of team `"Alpha"`
of tournament `A` in the store, the engine operation
`TournamentService.link_team_captain` — which the claim asserts must then
fail with the already-captain-elsewhere error and change no captain field —
applied to tournament `B` instead succeeds and sets the captain of `B`'s
team `"Y"` to `"alice"`. -/
theorem c2_counterexample :
    (find_captain_team store0 "alice").isSome = true
    ∧ (link_team_captain tB "Y" "alice").1
        = .ok { teamY with captain := some "alice" }
    ∧ (link_team_captain tB "Y" "alice").2
        = { tB with teams := [{ teamY with captain := some "alice" }] }
    ∧ (link_team_captain tB "Y" "alice").2 ≠ tB :=
  ⟨rfl, rfl, rfl, by decide⟩

/-- C2 (amended): the global-exclusivity check lives in the command layer,
not in the engine operation: for every store, whenever the acting user is
already the captain of some team of some tournament in the store (and the
requested alias exists), the `link` command fails — with the
already-linked-to-this-team message when the requested team is the one they
captain, and with the cannot-be-captain-of-more-than-one-team message
otherwise — and leaves the store (hence every Team's `captain` field)
unchanged; the engine operation `link_team_captain` by itself checks only
that the *target* team has no captain. -/
theorem c2_link_cmd_global_exclusivity (store : Store)
    (user a teamName : String)
    (halias : (lookupStore store a).isSome = true)
    (hcap : ∃ kv ∈ store, ∃ tm ∈ kv.2.teams, tm.captain = some user) :
    (link_cmd store user a teamName).2 = store
    ∧ ((link_cmd store user a teamName).1 = .error .alreadyLinkedToTeam
        ∨ (link_cmd store user a teamName).1
            = .error .cantBeCaptainOfMultipleTeams) := by
  obtain ⟨t, ht⟩ := Option.isSome_iff_exists.mp halias
  obtain ⟨pr, hpr⟩ := Option.isSome_iff_exists.mp
    (find_captain_team_isSome_of_exists store user hcap)
  obtain ⟨team, tt⟩ := pr
  unfold link_cmd
  rw [ht]
  dsimp only
  rw [hpr]
  dsimp only
  by_cases hn : team.name = teamName
  · rw [if_pos hn]
    exact ⟨rfl, Or.inl rfl⟩
  · rw [if_neg hn]
    exact ⟨rfl, Or.inr rfl⟩

/-- C2 witness: in the concrete store `store0` where `"alice"` captains a
team of tournament `A`, the `link` command for any team of tournament `B`
fails and leaves the store unchanged. -/
theorem c2_witness :
    (link_cmd store0 "alice" "B" "Y").2 = store0
    ∧ ((link_cmd store0 "alice" "B" "Y").1 = .error .alreadyLinkedToTeam
        ∨ (link_cmd store0 "alice" "B" "Y").1
            = .error .cantBeCaptainOfMultipleTeams) :=
  c2_link_cmd_global_exclusivity store0 "alice" "B" "Y" (by decide) (by decide)

theorem err_frame_of_or {α β : Type} {r : Except Err α × β} {b : β}
    (hor : r.1.isOk = true ∨ r.2 = b) {e : Err} (h : r.1 = .error e) :
    r.2 = b := by
  rcases hor with hok | h2
  · rw [h] at hok
    exact absurd hok (by simp [Except.isOk, Except.toBool])
  · exact h2

theorem refresh_frame_or (info : Option ToornamentInfo) (ps : List Participant)
    (t : Tournament) :
    (refresh_tournament info ps t).1.isOk = true
    ∨ (refresh_tournament info ps t).2 = t := by
  cases info with
  | none => exact Or.inr rfl
  | some i => exact Or.inl rfl

theorem reset_frame_or (pt : Option Participant) (t : Tournament) (n : Int) :
    (reset_tournament_team pt t n).1.isOk = true
    ∨ (reset_tournament_team pt t n).2 = t := by
  unfold reset_tournament_team
  cases find_team_by_id t (.int n) with
  | none => exact Or.inr rfl
  | some team =>
    dsimp only
    cases pt with
    | none => exact Or.inr rfl
    | some p => exact Or.inl rfl

theorem submit_frame_or (t : Tournament) (mn : String) (n : Int)
    (urls : List String) (pos el : Int) (now : String) :
    (submit_score t mn n urls pos el now).1.isOk = true
    ∨ (submit_score t mn n urls pos el now).2 = t := by
  unfold submit_score
  cases find_match_by_name t mn with
  | none => exact Or.inr rfl
  | some m =>
    dsimp only
    cases find_team_by_id t (.int n) with
    | none => exact Or.inr rfl
    | some team =>
      dsimp only
      by_cases h1 : m.id ≠ 0 ∧ team.id ∉ m.teams_registered
      · rw [if_pos h1]
        exact Or.inr rfl
      · rw [if_neg h1]
        by_cases h2 : m.status = MatchStatus.completed
        · rw [if_pos h2]
          exact Or.inr rfl
        · rw [if_neg h2]
          cases team.find_submission_by_match m.name with
          | some s => exact Or.inr rfl
          | none => exact Or.inl rfl

theorem add_screenshot_frame_or (t : Tournament) (mn : String) (n : Int)
    (urls : List String) (now : String) :
    (add_screenshot t mn n urls now).1.isOk = true
    ∨ (add_screenshot t mn n urls now).2 = t := by
  unfold add_screenshot
  cases find_match_by_name t mn with
  | none => exact Or.inr rfl
  | some m =>
    dsimp only
    cases find_team_by_id t (.int n) with
    | none => exact Or.inr rfl
    | some team =>
      dsimp only
      by_cases h2 : m.status = MatchStatus.completed
      · rw [if_pos h2]
        exact Or.inr rfl
      · rw [if_neg h2]
        cases team.find_submission_by_match m.name with
        | none => exact Or.inr rfl
        | some s => exact Or.inl rfl

theorem link_team_captain_frame_or (t : Tournament) (nm cap : String) :
    (link_team_captain t nm cap).1.isOk = true
    ∨ (link_team_captain t nm cap).2 = t := by
  unfold link_team_captain
  cases find_team_by_name t nm with
  | none => exact Or.inr rfl
  | some team =>
    dsimp only
    cases team.captain with
    | some c => exact Or.inr rfl
    | none => exact Or.inl rfl

theorem create_match_frame_or (t : Tournament) (mn cb : String)
    (pw : Option String) (mid : Int) (ca : String)
    (mi : Option ProviderMatchInfo) :
    (create_match t mn cb pw mid ca mi).1.isOk = true
    ∨ (create_match t mn cb pw mid ca mi).2 = t := by
  unfold create_match
  cases find_match_by_name t mn with
  | some m => exact Or.inr rfl
  | none =>
    dsimp only
    by_cases hid : mid ≠ 0
    · rw [if_pos hid]
      cases mi with
      | none => exact Or.inr rfl
      | some info => exact Or.inl rfl

    · rw [if_neg hid]
      exact Or.inl rfl

theorem join_match_frame_or (m : Match) (n : Int) (nm : String) :
    (join_match m n nm).1.isOk = true ∨ (join_match m n nm).2 = m := by
  unfold join_match
  by_cases h1 : m.id ≠ 0 ∧ PyVal.str (pyToStr (.int n)) ∉ m.teams_registered
  · rw [if_pos h1]
    exact Or.inr rfl
  · rw [if_neg h1]
    by_cases h2 : PyVal.str (pyToStr (.int n)) ∈ m.teams_joined
    · rw [if_pos h2]
      exact Or.inr rfl
    · rw [if_neg h2]
      by_cases h3 : m.status ≠ MatchStatus.pending
      · rw [if_pos h3]
        exact Or.inr rfl
      · rw [if_neg h3, if_pos h2]
        exact Or.inl rfl

theorem start_match_frame_or (m : Match) :
    (start_match m).1.isOk = true ∨ (start_match m).2 = m := by
  unfold start_match
  by_cases h : m.status ≠ MatchStatus.pending
  · rw [if_pos h]
    exact Or.inr rfl
  · rw [if_neg h]
    exact Or.inl rfl

theorem end_match_frame_or (m : Match) (force : Bool) :
    (end_match m force).1.isOk = true ∨ (end_match m force).2 = m := by
  unfold end_match
  by_cases h : m.status ≠ MatchStatus.ongoing ∧ force = false
  · rw [if_pos h]
    exact Or.inr rfl
  · rw [if_neg h]
    exact Or.inl rfl

theorem leave_match_frame_or (m : Match) (tid : PyVal) (nm : String) :
    (leave_match m tid nm).1.isOk = true ∨ (leave_match m tid nm).2 = m := by
  unfold leave_match
  by_cases h1 : tid ∉ m.teams_joined
  · rw [if_pos h1]
    exact Or.inr rfl
  · rw [if_neg h1]
    by_cases h2 : m.status ≠ MatchStatus.pending
    · rw [if_pos h2]
      exact Or.inr rfl
    · rw [if_neg h2]
      exact Or.inl rfl

theorem link_cmd_frame_or (store : Store) (user a nm : String) :
    (link_cmd store user a nm).1.isOk = true
    ∨ (link_cmd store user a nm).2 = store := by
  unfold link_cmd
  cases lookupStore store a with
  | none => exact Or.inr rfl
  | some t =>
    dsimp only
    cases find_captain_team store user with
    | some pr =>
      obtain ⟨team, tt⟩ := pr
      dsimp only
      by_cases hn : team.name = nm
      · rw [if_pos hn]
        exact Or.inr rfl
      · rw [if_neg hn]
        exact Or.inr rfl
    | none =>
      dsimp only
      cases find_team_by_name t nm with
      | none => exact Or.inr rfl
      | some team =>
        dsimp only
        cases team.captain with
        | some c => exact Or.inr rfl
        | none => exact Or.inl rfl

/-- C9: every modelled engine operation is atomic on failure: whenever it
returns a typed error, the state it threads (the `Tournament`, the `Match`,
or the whole store) is exactly the input state.  In particular
`refresh_tournament` raises the tournament-unknown error before writing
anything when the provider does not know the tournament, and
`reset_tournament_team` raises the participant-fetch error before clearing
any Team field when the provider cannot return the participant. -/
theorem c9_atomic_on_failure :
    (∀ info ps t e, (refresh_tournament info ps t).1 = .error e →
        (refresh_tournament info ps t).2 = t)
    ∧ (∀ pt t n e, (reset_tournament_team pt t n).1 = .error e →
        (reset_tournament_team pt t n).2 = t)
    ∧ (∀ t mn n urls pos el now e,
        (submit_score t mn n urls pos el now).1 = .error e →
        (submit_score t mn n urls pos el now).2 = t)
    ∧ (∀ t mn n urls now e, (add_screenshot t mn n urls now).1 = .error e →
        (add_screenshot t mn n urls now).2 = t)
    ∧ (∀ t nm cap e, (link_team_captain t nm cap).1 = .error e →
        (link_team_captain t nm cap).2 = t)
    ∧ (∀ t mn cb pw mid ca mi e,
        (create_match t mn cb pw mid ca mi).1 = .error e →
        (create_match t mn cb pw mid ca mi).2 = t)
    ∧ (∀ m n nm e, (join_match m n nm).1 = .error e →
        (join_match m n nm).2 = m)
    ∧ (∀ m e, (start_match m).1 = .error e → (start_match m).2 = m)
    ∧ (∀ m force e, (end_match m force).1 = .error e →
        (end_match m force).2 = m)
    ∧ (∀ m tid nm e, (leave_match m tid nm).1 = .error e →
        (leave_match m tid nm).2 = m)
    ∧ (∀ store user a nm e, (link_cmd store user a nm).1 = .error e →
        (link_cmd store user a nm).2 = store) :=
  ⟨fun info ps t _ h => err_frame_of_or (refresh_frame_or info ps t) h,
   fun pt t n _ h => err_frame_of_or (reset_frame_or pt t n) h,
   fun t mn n urls pos el now _ h =>
     err_frame_of_or (submit_frame_or t mn n urls pos el now) h,
   fun t mn n urls now _ h =>
     err_frame_of_or (add_screenshot_frame_or t mn n urls now) h,
   fun t nm cap _ h => err_frame_of_or (link_team_captain_frame_or t nm cap) h,
   fun t mn cb pw mid ca mi _ h =>
     err_frame_of_or (create_match_frame_or t mn cb pw mid ca mi) h,
   fun m n nm _ h => err_frame_of_or (join_match_frame_or m n nm) h,
   fun m _ h => err_frame_of_or (start_match_frame_or m) h,
   fun m force _ h => err_frame_of_or (end_match_frame_or m force) h,
   fun m tid nm _ h => err_frame_of_or (leave_match_frame_or m tid nm) h,
   fun store user a nm _ h => err_frame_of_or (link_cmd_frame_or store user a nm) h⟩

/-- C9 witness: one concrete failing call per operation, each leaving its
state exactly as it was. -/
theorem c9_witness :
    (refresh_tournament none [] tB).2 = tB
    ∧ (reset_tournament_team none tSubOk 7).2 = tSubOk
    ∧ (submit_score tSubDone "m1" 7 ["u"] 1 2 "now").2 = tSubDone
    ∧ (add_screenshot tAmendDone "m1" 7 ["u2"] "t1").2 = tAmendDone
    ∧ (link_team_captain tA "Alpha" "bob").2 = tA
    ∧ (create_match { tB with matches_ := [m0] } "m1" "a" none 0 "t" none).2
        = { tB with matches_ := [m0] }
    ∧ (join_match { mReg with status := MatchStatus.ongoing } 7 "Seven").2
        = { mReg with status := MatchStatus.ongoing }
    ∧ (start_match { m0 with status := MatchStatus.ongoing }).2
        = { m0 with status := MatchStatus.ongoing }
    ∧ (end_match m0 false).2 = m0
    ∧ (leave_match m0 (PyVal.str "7") "Seven").2 = m0
    ∧ (link_cmd store0 "alice" "B" "Y").2 = store0 :=
  ⟨c9_atomic_on_failure.1 none [] tB (.tournamentIDNotFound 2) rfl,
   c9_atomic_on_failure.2.1 none tSubOk 7
     (.errorFetchingParticipantData 7 "B") rfl,
   c9_atomic_on_failure.2.2.1 tSubDone "m1" 7 ["u"] 1 2 "now"
     (.matchCompletedLocked "m1") rfl,
   c9_atomic_on_failure.2.2.2.1 tAmendDone "m1" 7 ["u2"] "t1"
     (.matchCompletedLocked "m1") rfl,
   c9_atomic_on_failure.2.2.2.2.1 tA "Alpha" "bob"
     (.tournamentTeamCaptainExists "Alpha" "alice") rfl,
   c9_atomic_on_failure.2.2.2.2.2.1 { tB with matches_ := [m0] } "m1" "a"
     none 0 "t" none .matchNameExists rfl,
   c9_atomic_on_failure.2.2.2.2.2.2.1 { mReg with status := MatchStatus.ongoing }
     7 "Seven" (.cantJoinWithStatus MatchStatus.ongoing) rfl,
   c9_atomic_on_failure.2.2.2.2.2.2.2.1 { m0 with status := MatchStatus.ongoing }
     (.cantStartMatchWithStatus MatchStatus.ongoing) rfl,
   c9_atomic_on_failure.2.2.2.2.2.2.2.2.1 m0 false
     (.cantEndMatchWithStatus MatchStatus.pending) rfl,
   c9_atomic_on_failure.2.2.2.2.2.2.2.2.2.1 m0 (PyVal.str "7") "Seven"
     (.teamNotInMatch "Seven") rfl,
   c9_atomic_on_failure.2.2.2.2.2.2.2.2.2.2 store0 "alice" "B" "Y"
     .cantBeCaptainOfMultipleTeams rfl⟩

theorem updateFirstTeam_forall₂ (p : Participant) (ts : List Team) :
    ∀ ts', updateFirstTeam p ts = some ts' → List.Forall₂ (stepRel p) ts ts' := by
  induction ts with
  | nil =>
    intro ts' h
    simp [updateFirstTeam] at h
  | cons tm rest ih =>
    intro ts' h
    unfold updateFirstTeam at h
    by_cases htm : tm.id = PyVal.str (pyToStr p.id)
    · rw [if_pos htm] at h
      cases h
      exact List.Forall₂.cons (Or.inr ⟨htm, rfl⟩)
        (List.forall₂_same.mpr (fun x _ => Or.inl rfl))
    · rw [if_neg htm] at h
      cases hrec : updateFirstTeam p rest with
      | none =>
        rw [hrec] at h
        simp at h
      | some rest' =>
        rw [hrec, Option.map_some'] at h
        cases h
        exact List.Forall₂.cons (Or.inl rfl) (ih rest' hrec)

theorem refreshStep_forall₂_take (p : Participant) (ts : List Team) :
    List.Forall₂ (stepRel p) ts ((refreshStep ts p).take ts.length) := by
  unfold refreshStep
  cases hu : updateFirstTeam p ts with
  | none =>
    dsimp only
    rw [List.take_left]
    exact List.forall₂_same.mpr (fun x _ => Or.inl rfl)
  | some ts' =>
    dsimp only
    have hf := updateFirstTeam_forall₂ p ts ts' hu
    rw [hf.length_eq, List.take_length]
    exact hf

theorem length_le_refreshStep (ts : List Team) (p : Participant) :
    ts.length ≤ (refreshStep ts p).length := by
  unfold refreshStep
  cases hu : updateFirstTeam p ts with
  | none => simp
  | some ts' =>
    dsimp only
    rw [(updateFirstTeam_forall₂ p ts ts' hu).length_eq]

theorem length_le_refreshTeams (ps : List Participant) (ts : List Team) :
    ts.length ≤ (refreshTeams ts ps).length := by
  induction ps generalizing ts with
  | nil => exact le_refl _
  | cons p ps' ih =>
    exact le_trans (length_le_refreshStep ts p) (ih (refreshStep ts p))

theorem forall₂_comp {α β γ : Type} {P : α → β → Prop} {Q : β → γ → Prop}
    {RR : α → γ → Prop} (hcomp : ∀ a b c, P a b → Q b c → RR a c) :
    ∀ {l1 : List α} {l2 : List β} {l3 : List γ},
      List.Forall₂ P l1 l2 → List.Forall₂ Q l2 l3 →
      List.Forall₂ RR l1 l3 := by
  intro l1 l2 l3 h1
  induction h1 generalizing l3 with
  | nil =>
    intro h2
    cases h2
    exact List.Forall₂.nil
  | cons hab htail ih =>
    intro h2
    cases h2 with
    | cons hbc htail2 =>
      exact List.Forall₂.cons (hcomp _ _ _ hab hbc) (ih htail2)

theorem stepRel_refreshRel_comp (p : Participant) (ps' : List Participant)
    (a b c : Team) (hab : stepRel p a b) (hbc : refreshRel ps' b c) :
    refreshRel (p :: ps') a c := by
  unfold stepRel at hab
  unfold refreshRel at hbc ⊢
  obtain ⟨⟨hid, hcf, hcap, hsub⟩, hval⟩ := hbc
  have hcore : b.id = a.id ∧ b.custom_fields = a.custom_fields
      ∧ b.captain = a.captain ∧ b.score_submissions = a.score_submissions := by
    rcases hab with rfl | ⟨_, rfl⟩
    · exact ⟨rfl, rfl, rfl, rfl⟩
    · exact ⟨rfl, rfl, rfl, rfl⟩
  refine ⟨⟨hid.trans hcore.1, hcf.trans hcore.2.1,
    hcap.trans hcore.2.2.1, hsub.trans hcore.2.2.2⟩, ?_⟩
  rcases hab with rfl | ⟨hida, rfl⟩
  · rcases hval with rfl | ⟨q, hq, hidb, rfl⟩
    · exact Or.inl rfl
    · exact Or.inr ⟨q, List.mem_cons_of_mem p hq, hidb, rfl⟩
  · rcases hval with rfl | ⟨q, hq, hidb, rfl⟩
    · exact Or.inr ⟨p, List.mem_cons_self p ps', hida, rfl⟩
    · exact Or.inr ⟨q, List.mem_cons_of_mem p hq, hidb, rfl⟩

theorem refreshTeams_forall₂_take (ps : List Participant) (ts : List Team) :
    List.Forall₂ (refreshRel ps) ts
      ((refreshTeams ts ps).take ts.length) := by
  induction ps generalizing ts with
  | nil =>
    unfold refreshTeams
    dsimp only [List.foldl]
    rw [List.take_length]
    exact List.forall₂_same.mpr
      (fun x _ => ⟨⟨rfl, rfl, rfl, rfl⟩, Or.inl rfl⟩)
  | cons p ps' ih =>
    have h1 := refreshStep_forall₂_take p ts
    have h2' := List.forall₂_take ts.length (ih (refreshStep ts p))
    rw [List.take_take,
      (inf_eq_left.mpr (length_le_refreshStep ts p) :
        ts.length ⊓ (refreshStep ts p).length = ts.length)] at h2'
    exact forall₂_comp (stepRel_refreshRel_comp p ps') h1 h2'

/-- C3: reconciliation removes no Team and, on every pre-existing Team,
leaves `id`, `custom_fields`, `captain` and `score_submissions` exactly as
they were, overwriting at most `name`, `lineup` and `checked_in` (and then
only from a fetched participant whose id matches); `info` is replaced by
the fetched snapshot. -/
theorem c3_refresh_frame (info : ToornamentInfo) (ps : List Participant)
    (t : Tournament) :
    t.teams.length ≤ (refresh_tournament (some info) ps t).2.teams.length
    ∧ (refresh_tournament (some info) ps t).2.info = some info
    ∧ List.Forall₂ (refreshRel ps) t.teams
        ((refresh_tournament (some info) ps t).2.teams.take t.teams.length) :=
  ⟨length_le_refreshTeams ps t.teams, rfl, refreshTeams_forall₂_take ps t.teams⟩

theorem set_get?_self {α : Type} (l : List α) (i : Nat) (a : α)
    (h : l.get? i = some a) : l.set i a = l := by
  induction l generalizing i with
  | nil => simp at h
  | cons x xs ih =>
    cases i with
    | zero =>
      have hx : x = a := by simpa using h
      subst hx
      rfl
    | succ n =>
      have h' : xs.get? n = some a := by simpa using h
      exact congrArg (List.cons x) (ih n h')

theorem firstIdxTeam_spec (s : String) (ts : List Team) :
    ∀ i, firstIdxTeam s ts = some i →
      ∃ tm, ts.get? i = some tm ∧ tm.id = PyVal.str s := by
  induction ts with
  | nil =>
    intro i h
    simp [firstIdxTeam] at h
  | cons a rest ih =>
    intro i h
    unfold firstIdxTeam at h
    by_cases ha : a.id = PyVal.str s
    · rw [if_pos ha] at h
      cases h
      exact ⟨a, rfl, ha⟩
    · rw [if_neg ha] at h
      cases hrec : firstIdxTeam s rest with
      | none =>
        rw [hrec] at h
        simp at h
      | some j =>
        rw [hrec, Option.map_some'] at h
        cases h
        obtain ⟨tm, hget, hid⟩ := ih j hrec
        exact ⟨tm, hget, hid⟩

theorem updateFirstTeam_none_iff (p : Participant) (ts : List Team) :
    updateFirstTeam p ts = none ↔ firstIdxTeam (pyToStr p.id) ts = none := by
  induction ts with
  | nil => simp [updateFirstTeam, firstIdxTeam]
  | cons a rest ih =>
    unfold updateFirstTeam firstIdxTeam
    by_cases ha : a.id = PyVal.str (pyToStr p.id)
    · rw [if_pos ha, if_pos ha]
      simp
    · rw [if_neg ha, if_neg ha]
      simp [Option.map_eq_none', ih]

theorem updateFirstTeam_set (p : Participant) (ts : List Team) :
    ∀ i tm, firstIdxTeam (pyToStr p.id) ts = some i → ts.get? i = some tm →
      updateFirstTeam p ts = some (ts.set i (updTeam tm p)) := by
  induction ts with
  | nil =>
    intro i tm h
    simp [firstIdxTeam] at h
  | cons a rest ih =>
    intro i tm hfi hget
    unfold firstIdxTeam at hfi
    unfold updateFirstTeam
    by_cases ha : a.id = PyVal.str (pyToStr p.id)
    · rw [if_pos ha] at hfi
      cases hfi
      have hx : a = tm := by simpa using hget
      subst hx
      rw [if_pos ha]
      rfl
    · rw [if_neg ha] at hfi
      rw [if_neg ha]
      cases hrec : firstIdxTeam (pyToStr p.id) rest with
      | none =>
        rw [hrec] at hfi
        simp at hfi
      | some j =>
        rw [hrec, Option.map_some'] at hfi
        cases hfi
        have hget' : rest.get? j = some tm := by simpa using hget
        rw [ih j tm hrec hget', Option.map_some']
        rfl

theorem refreshStep_of_none (p : Participant) (ts : List Team)
    (h : firstIdxTeam (pyToStr p.id) ts = none) :
    refreshStep ts p = ts ++ [Team.from_dict p] := by
  unfold refreshStep
  rw [(updateFirstTeam_none_iff p ts).mpr h]

theorem refreshStep_of_some (p : Participant) (ts : List Team) (i : Nat)
    (tm : Team) (hfi : firstIdxTeam (pyToStr p.id) ts = some i)
    (hget : ts.get? i = some tm) :
    refreshStep ts p = ts.set i (updTeam tm p) := by
  unfold refreshStep
  rw [updateFirstTeam_set p ts i tm hfi hget]

theorem ids_set_of_id_eq (ts : List Team) (i : Nat) (tm tm' : Team)
    (hget : ts.get? i = some tm) (hid : tm'.id = tm.id) :
    (ts.set i tm').map Team.id = ts.map Team.id := by
  rw [List.map_set]
  apply set_get?_self
  rw [List.get?_map, hget, hid]
  rfl

theorem ids_refreshStep (ts : List Team) (p : Participant) :
    (refreshStep ts p).map Team.id = ts.map Team.id
    ∨ (refreshStep ts p).map Team.id = ts.map Team.id ++ [p.id] := by
  cases hfi : firstIdxTeam (pyToStr p.id) ts with
  | none =>
    right
    rw [refreshStep_of_none p ts hfi, List.map_append]
    rfl
  | some i =>
    left
    obtain ⟨tm, hget, _⟩ := firstIdxTeam_spec (pyToStr p.id) ts i hfi
    rw [refreshStep_of_some p ts i tm hfi hget]
    exact ids_set_of_id_eq ts i tm (updTeam tm p) hget rfl

theorem firstIdxTeam_congr_ids (s : String) :
    ∀ (ts ts' : List Team), ts.map Team.id = ts'.map Team.id →
      firstIdxTeam s ts = firstIdxTeam s ts' := by
  intro ts
  induction ts with
  | nil =>
    intro ts' h
    cases ts' with
    | nil => rfl
    | cons b rest' => simp at h
  | cons a rest ih =>
    intro ts' h
    cases ts' with
    | nil => simp at h
    | cons b rest' =>
      simp only [List.map_cons, List.cons.injEq] at h
      obtain ⟨hab, hrest⟩ := h
      unfold firstIdxTeam
      rw [hab, ih rest' hrest]

theorem firstIdxTeam_append_left (s : String) :
    ∀ (ts ts2 : List Team) (i : Nat), firstIdxTeam s ts = some i →
      firstIdxTeam s (ts ++ ts2) = some i := by
  intro ts
  induction ts with
  | nil =>
    intro ts2 i h
    simp [firstIdxTeam] at h
  | cons a rest ih =>
    intro ts2 i h
    rw [List.cons_append]
    unfold firstIdxTeam at h ⊢
    by_cases ha : a.id = PyVal.str s
    · rw [if_pos ha] at h ⊢
      exact h
    · rw [if_neg ha] at h ⊢
      cases hrec : firstIdxTeam s rest with
      | none =>
        rw [hrec] at h
        simp at h
      | some j =>
        rw [hrec, Option.map_some'] at h
        rw [ih ts2 j hrec, Option.map_some']
        exact h

theorem firstIdxTeam_append_new (s : String) (tm : Team)
    (htm : tm.id = PyVal.str s) :
    ∀ ts, firstIdxTeam s ts = none →
      firstIdxTeam s (ts ++ [tm]) = some ts.length := by
  intro ts
  induction ts with
  | nil =>
    intro _
    rw [List.nil_append]
    unfold firstIdxTeam
    rw [if_pos htm]
    rfl
  | cons a rest ih =>
    intro h
    rw [List.cons_append]
    unfold firstIdxTeam at h ⊢
    by_cases ha : a.id = PyVal.str s
    · rw [if_pos ha] at h
      simp at h
    · rw [if_neg ha] at h ⊢
      cases hrec : firstIdxTeam s rest with
      | some j =>
        rw [hrec] at h
        simp at h
      | none =>
        rw [ih hrec, Option.map_some']
        rfl

theorem firstIdxTeam_mono_step (s : String) (ts : List Team) (p : Participant)
    (i : Nat) (h : firstIdxTeam s ts = some i) :
    firstIdxTeam s (refreshStep ts p) = some i := by
  rcases ids_refreshStep ts p with hids | hids
  · rw [firstIdxTeam_congr_ids s (refreshStep ts p) ts hids]
    exact h
  · have hids' : (refreshStep ts p).map Team.id
        = (ts ++ [Team.from_dict p]).map Team.id := by
      rw [hids, List.map_append]
      rfl
    rw [firstIdxTeam_congr_ids s (refreshStep ts p) (ts ++ [Team.from_dict p])
      hids']
    exact firstIdxTeam_append_left s ts [Team.from_dict p] i h

theorem firstIdxTeam_mono_refreshTeams (s : String) (qs : List Participant) :
    ∀ (ts : List Team) (i : Nat), firstIdxTeam s ts = some i →
      firstIdxTeam s (refreshTeams ts qs) = some i := by
  induction qs with
  | nil => intro ts i h; exact h
  | cons q qs' ih =>
    intro ts i h
    exact ih (refreshStep ts q) i (firstIdxTeam_mono_step s ts q i h)

theorem refreshStep_self_entry (p : Participant) (ts : List Team)
    (hstr : p.id.isStr = true) :
    ∃ i tm, firstIdxTeam (pyToStr p.id) (refreshStep ts p) = some i
      ∧ (refreshStep ts p).get? i = some tm
      ∧ updTeam tm p = tm
      ∧ tm.id = PyVal.str (pyToStr p.id) := by
  cases hfi : firstIdxTeam (pyToStr p.id) ts with
  | some i =>
    obtain ⟨tm, hget, hid⟩ := firstIdxTeam_spec (pyToStr p.id) ts i hfi
    refine ⟨i, updTeam tm p, firstIdxTeam_mono_step _ ts p i hfi, ?_, rfl, hid⟩
    rw [refreshStep_of_some p ts i tm hfi hget, List.get?_set_eq, hget]
    rfl
  | none =>
    have hid : (Team.from_dict p).id = PyVal.str (pyToStr p.id) := by
      cases hp : p.id with
      | str s => simp [Team.from_dict, hp, pyToStr]
      | int k =>
        rw [hp] at hstr
        exact absurd hstr (by simp [PyVal.isStr])
    refine ⟨ts.length, Team.from_dict p, ?_, ?_, rfl, hid⟩
    · rw [refreshStep_of_none p ts hfi]
      exact firstIdxTeam_append_new _ _ hid ts hfi
    · rw [refreshStep_of_none p ts hfi]
      exact List.get?_concat_length ts (Team.from_dict p)

theorem refreshTeams_untouched (qs : List Participant) :
    ∀ (ts : List Team) (s : String) (i : Nat) (tm : Team),
      firstIdxTeam s ts = some i → ts.get? i = some tm →
      tm.id = PyVal.str s → (∀ q ∈ qs, pyToStr q.id ≠ s) →
      (refreshTeams ts qs).get? i = some tm
      ∧ firstIdxTeam s (refreshTeams ts qs) = some i := by
  induction qs with
  | nil =>
    intro ts s i tm hfi hget _ _
    exact ⟨hget, hfi⟩
  | cons q qs' ih =>
    intro ts s i tm hfi hget htm hqs
    have hqneq : pyToStr q.id ≠ s := hqs q (List.mem_cons_self q qs')
    have hstep : (refreshStep ts q).get? i = some tm := by
      cases hfq : firstIdxTeam (pyToStr q.id) ts with
      | none =>
        rw [refreshStep_of_none q ts hfq]
        have hlt : i < ts.length := (List.get?_eq_some.mp hget).1
        rw [List.get?_append hlt]
        exact hget
      | some j =>
        obtain ⟨tmj, hgetj, hidj⟩ := firstIdxTeam_spec (pyToStr q.id) ts j hfq
        have hij : j ≠ i := by
          intro hcontra
          subst hcontra
          rw [hget] at hgetj
          cases hgetj
          rw [htm] at hidj
          exact hqneq (PyVal.str.injEq _ _ ▸ hidj).symm
        rw [refreshStep_of_some q ts j tmj hfq hgetj,
          List.get?_set_ne _ _ hij]
        exact hget
    have hfstep : firstIdxTeam s (refreshStep ts q) = some i :=
      firstIdxTeam_mono_step s ts q i hfi
    exact ih (refreshStep ts q) s i tm hfstep hstep htm
      (fun q' hq' => hqs q' (List.mem_cons_of_mem q hq'))

theorem ids_eq_of_core_eq (ts ts' : List Team)
    (h : ts.map teamCore = ts'.map teamCore) :
    ts.map Team.id = ts'.map Team.id := by
  have e1 : (ts.map teamCore).map Prod.fst = ts.map Team.id := by
    rw [List.map_map]
    rfl
  have e2 : (ts'.map teamCore).map Prod.fst = ts'.map Team.id := by
    rw [List.map_map]
    rfl
  rw [← e1, ← e2, h]

theorem core_get_eq (ts ts' : List Team) (i : Nat) (tm tm' : Team)
    (h : ts.map teamCore = ts'.map teamCore)
    (hget : ts.get? i = some tm) (hget' : ts'.get? i = some tm') :
    teamCore tm = teamCore tm' := by
  have h2 := congrArg (fun l => l.get? i) h
  simp only [List.get?_map, hget, hget', Option.map_some',
    Option.some.injEq] at h2
  exact h2

theorem updTeam_congr_core (tm tm' : Team) (q : Participant)
    (h : teamCore tm = teamCore tm') : updTeam tm q = updTeam tm' q := by
  unfold teamCore at h
  simp only [Prod.mk.injEq] at h
  obtain ⟨h1, h2, h3, h4⟩ := h
  unfold updTeam
  simp only [Team.mk.injEq]
  exact ⟨h1, trivial, h2, trivial, h3, trivial, h4⟩

theorem core_set_self (ts : List Team) (i : Nat) (tm tm2 : Team)
    (hget : ts.get? i = some tm) (hcore : teamCore tm2 = teamCore tm) :
    (ts.set i tm2).map teamCore = ts.map teamCore := by
  rw [List.map_set]
  apply set_get?_self
  rw [List.get?_map, hget, hcore]
  rfl

theorem refreshTeams_sim (qs : List Participant) :
    ∀ (ts ts' : List Team),
      ts.map teamCore = ts'.map teamCore →
      (∀ j, ts.get? j ≠ ts'.get? j →
        ∃ q ∈ qs, firstIdxTeam (pyToStr q.id) ts = some j) →
      refreshTeams ts qs = refreshTeams ts' qs := by
  induction qs with
  | nil =>
    intro ts ts' _ hdiff
    have : ts = ts' := by
      apply List.ext
      intro n
      by_contra hne
      obtain ⟨q, hq, _⟩ := hdiff n hne
      exact absurd hq (List.not_mem_nil q)
    rw [this]
  | cons q qs' ih =>
    intro ts ts' hcore hdiff
    have hids := ids_eq_of_core_eq ts ts' hcore
    have hlen : ts.length = ts'.length := by
      have := congrArg List.length hids
      simpa using this
    have hfiq : firstIdxTeam (pyToStr q.id) ts
        = firstIdxTeam (pyToStr q.id) ts' :=
      firstIdxTeam_congr_ids (pyToStr q.id) ts ts' hids
    show refreshTeams (refreshStep ts q) qs'
        = refreshTeams (refreshStep ts' q) qs'
    cases hfi : firstIdxTeam (pyToStr q.id) ts with
    | none =>
      rw [refreshStep_of_none q ts hfi,
        refreshStep_of_none q ts' (hfiq ▸ hfi)]
      apply ih
      · rw [List.map_append, List.map_append, hcore]
      · intro j hne
        by_cases hj : j < ts.length
        · rw [List.get?_append hj, List.get?_append (hlen ▸ hj)] at hne
          obtain ⟨q', hq', hfiq'⟩ := hdiff j hne
          rcases List.mem_cons.mp hq' with hq0 | hq'
          · exfalso
            rw [hq0, hfi] at hfiq'
            cases hfiq'
          · exact ⟨q', hq',
              firstIdxTeam_append_left _ ts [Team.from_dict q] j hfiq'⟩
        · exfalso
          apply hne
          rw [List.get?_append_right (Nat.le_of_not_lt hj),
            List.get?_append_right (hlen ▸ Nat.le_of_not_lt hj), hlen]
    | some i =>
      obtain ⟨tmi, hgeti, hidi⟩ := firstIdxTeam_spec (pyToStr q.id) ts i hfi
      have hfi' : firstIdxTeam (pyToStr q.id) ts' = some i := hfiq ▸ hfi
      obtain ⟨tmi', hgeti', hidi'⟩ :=
        firstIdxTeam_spec (pyToStr q.id) ts' i hfi'
      have hcorei : teamCore tmi = teamCore tmi' :=
        core_get_eq ts ts' i tmi tmi' hcore hgeti hgeti'
      have hupd : updTeam tmi q = updTeam tmi' q :=
        updTeam_congr_core tmi tmi' q hcorei
      rw [refreshStep_of_some q ts i tmi hfi hgeti,
        refreshStep_of_some q ts' i tmi' hfi' hgeti']
      apply ih
      · rw [core_set_self ts i tmi (updTeam tmi q) hgeti rfl,
          core_set_self ts' i tmi' (updTeam tmi' q) hgeti' rfl]
        exact hcore
      · intro j hne
        have hji : j ≠ i := by
          intro hcontra
          subst hcontra
          apply hne
          rw [List.get?_set_eq, List.get?_set_eq, hgeti, hgeti']
          simp [hupd]
        rw [List.get?_set_ne _ _ (fun hc => hji hc.symm),
          List.get?_set_ne _ _ (fun hc => hji hc.symm)] at hne
        obtain ⟨q', hq', hfiq'⟩ := hdiff j hne
        rcases List.mem_cons.mp hq' with hq0 | hq'
        · exfalso
          rw [hq0, hfi] at hfiq'
          cases hfiq'
          exact hji rfl
        · refine ⟨q', hq', ?_⟩
          have hidseq : (ts.set i (updTeam tmi q)).map Team.id
              = ts.map Team.id :=
            ids_set_of_id_eq ts i tmi (updTeam tmi q) hgeti rfl
          rw [firstIdxTeam_congr_ids _ _ _ hidseq]
          exact hfiq'

theorem refreshTeams_idem (ps : List Participant) :
    ∀ ts, (∀ p ∈ ps, p.id.isStr = true) →
      refreshTeams (refreshTeams ts ps) ps = refreshTeams ts ps := by
  induction ps with
  | nil =>
    intro ts _
    rfl
  | cons p ps' ih =>
    intro ts h
    have hstr : p.id.isStr = true := h p (List.mem_cons_self p ps')
    have hps' : ∀ q ∈ ps', q.id.isStr = true :=
      fun q hq => h q (List.mem_cons_of_mem p hq)
    obtain ⟨i, tmA, hfiA, hgetA, habs, hidA⟩ :=
      refreshStep_self_entry p ts hstr
    have hfiB : firstIdxTeam (pyToStr p.id)
        (refreshTeams (refreshStep ts p) ps') = some i :=
      firstIdxTeam_mono_refreshTeams _ ps' (refreshStep ts p) i hfiA
    obtain ⟨tmB, hgetB, hidB⟩ :=
      firstIdxTeam_spec _ (refreshTeams (refreshStep ts p) ps') i hfiB
    show refreshTeams
        (refreshStep (refreshTeams (refreshStep ts p) ps') p) ps'
      = refreshTeams (refreshStep ts p) ps'
    rw [refreshStep_of_some p _ i tmB hfiB hgetB]
    by_cases hdup : ∃ q ∈ ps', pyToStr q.id = pyToStr p.id
    · have hsim := refreshTeams_sim ps'
        ((refreshTeams (refreshStep ts p) ps').set i (updTeam tmB p))
        (refreshTeams (refreshStep ts p) ps')
        (core_set_self _ i tmB (updTeam tmB p) hgetB rfl)
        (by
          intro j hne
          have hji : j = i := by
            by_contra hc
            exact hne (List.get?_set_ne _ _ (fun he => hc he.symm))
          subst hji
          obtain ⟨q, hq, hkey⟩ := hdup
          refine ⟨q, hq, ?_⟩
          rw [hkey,
            firstIdxTeam_congr_ids _ _ _
              (ids_set_of_id_eq _ j tmB (updTeam tmB p) hgetB rfl)]
          exact hfiB)
      rw [hsim]
      exact ih (refreshStep ts p) hps'
    · push_neg at hdup
      have hunt := refreshTeams_untouched ps' (refreshStep ts p)
        (pyToStr p.id) i tmA hfiA hgetA hidA hdup
      have htmBA : tmB = tmA := by
        have h2 := hunt.1
        rw [hgetB] at h2
        cases h2
        rfl
      rw [htmBA, habs, set_get?_self _ i tmA hunt.1]
      exact ih (refreshStep ts p) hps'

/-- C1 counterexample: the claim extends idempotence to participant lists
whose ids are not strings, but for the participant `pInt` (integer id `7`)
every run of the reconciliation appends a fresh Team — the first run grows
`tB` from one team to two, the second to three — so running
`refresh_tournament` twice on the same provider response does not equal
running it once. -/
theorem c1_counterexample :
    ((refresh_tournament (some info0) [pInt] tB).2.teams.length = 2
      ∧ (refresh_tournament (some info0) [pInt]
          ((refresh_tournament (some info0) [pInt] tB).2)).2.teams.length = 3)
    ∧ (refresh_tournament (some info0) [pInt]
        ((refresh_tournament (some info0) [pInt] tB).2)).2
      ≠ (refresh_tournament (some info0) [pInt] tB).2 :=
  ⟨⟨rfl, rfl⟩, by decide⟩

/-- C1 (amended per counterexample): reconciliation is idempotent on an
unchanged provider response whenever every fetched participant id is a
string (as the provider delivers them): running `refresh_tournament` twice
with the identical `info`/participant response yields exactly the
Tournament of the first run — no Team duplicated, every Team's `captain`
and `score_submissions` as after the first run.  With a non-string
participant id the matched-team lookup `p.id == str(team_id)` can never
succeed and the participant is re-appended on every run (see the
counterexample). -/
theorem c1_refresh_idempotent_on_string_ids (info : Option ToornamentInfo)
    (ps : List Participant) (t : Tournament)
    (hstr : ∀ p ∈ ps, p.id.isStr = true) :
    (refresh_tournament info ps ((refresh_tournament info ps t).2)).2
      = (refresh_tournament info ps t).2 := by
  cases info with
  | none => rfl
  | some i =>
    unfold refresh_tournament
    dsimp only
    rw [refreshTeams_idem ps t.teams hstr]

/-- C1 witness: a concrete two-participant response (one id matching an
existing team, one new), both ids strings: refreshing twice equals
refreshing once. -/
theorem c1_witness :
    (refresh_tournament (some info0) [pStr, pNew]
        ((refresh_tournament (some info0) [pStr, pNew] tB).2)).2
      = (refresh_tournament (some info0) [pStr, pNew] tB).2 :=
  c1_refresh_idempotent_on_string_ids (some info0) [pStr, pNew] tB (by decide)
